import Mathlib

/-!
Verification of `workshop_sections/mnist_series/mnist_cnn_custom_estimator/cnn_mnist.py`.

The script is glue code around TensorFlow: it builds a fixed CNN graph in
`cnn_model_fn`, trains it with an estimator, evaluates, predicts and exports.
We give a shallow embedding of the numeric semantics of that graph over the
real numbers (the ideal arithmetic that the floating-point kernels
approximate), of the input pipeline (`generate_input_fn`, built on
`tf.train.shuffle_batch`), of the evaluation pass, and of the control flow of
`main`, and prove the specified properties about these definitions.

Tensors are total functions out of `Fin`-indexed shapes; the TensorFlow
library primitives used by the script (`tf.nn.softmax`, `tf.argmax`,
`tf.layers.conv2d`, `tf.layers.max_pooling2d`, `tf.layers.dense`,
`tf.layers.dropout`, `tf.one_hot`, `tf.losses.softmax_cross_entropy`,
`tf.train.shuffle_batch`, `tf.reshape`) are embedded from their documented
semantics, since their code is outside this repository.
-/

namespace CnnMnist

/-- The estimator mode flag, `tf.estimator.ModeKeys`: the tri-state
discriminator threaded through `cnn_model_fn`. -/
inductive Mode where
  | TRAIN
  | EVAL
  | PREDICT
deriving DecidableEq, Repr

/-! ### The shuffle-batch input pipeline (`generate_input_fn`)

`generate_input_fn(dataset, batch_size)` builds `tf.train.shuffle_batch`
over constant tensors holding the whole dataset, with
`capacity = 8 * batch_size`, `min_after_dequeue = 4 * batch_size` and
`enqueue_many=True`.  The queue runner enqueues the dataset rows in order,
starting over from the first row whenever it reaches the end; each step
dequeues `batch_size` uniformly random elements of the buffer.  We model the
schedule in which the runner keeps the buffer filled to capacity before
every dequeue (a legal schedule: the capacity bound exceeds
`min_after_dequeue`), with the random index choices supplied by `rand`. -/

/-- State of the `RandomShuffleQueue`: the current buffer contents and the
index of the next dataset row the runner will enqueue (the dataset is
enqueued in order, cyclically). -/
structure QueueState (α : Type) where
  buffer : List α
  pos : ℕ

/-- Row `n` of the cyclically repeated dataset. -/
def cycleRow {α : Type} (data : List α) (n : ℕ) : Option α :=
  data.get? (n % data.length)

/-- The queue runner fills the buffer up to `cap` elements, taking
consecutive rows of the cyclically repeated dataset. -/
def fillTo {α : Type} (data : List α) (cap : ℕ) (q : QueueState α) :
    QueueState α :=
  let n := cap - q.buffer.length
  { buffer := q.buffer ++ (List.range n).filterMap (fun t => cycleRow data (q.pos + t))
    pos := q.pos + n }

/-- Dequeue the buffer element at random position `r % size` (none when the
buffer is empty). -/
def dequeueAt {α : Type} (r : ℕ) (q : QueueState α) : Option α × QueueState α :=
  match q.buffer.get? (r % q.buffer.length) with
  | some a => (some a, { buffer := q.buffer.eraseIdx (r % q.buffer.length), pos := q.pos })
  | none => (none, q)

/-- One element draw of `shuffle_batch` under the filled-to-capacity
schedule: refill, then dequeue at the random position `r`. -/
def drawOne {α : Type} (data : List α) (cap : ℕ) (r : ℕ) (q : QueueState α) :
    Option α × QueueState α :=
  dequeueAt r (fillTo data cap q)

/-- The sequence of `k` element draws starting from queue state `q`, where
draw number `i` uses random position `rand i`. -/
def drawSeqFrom {α : Type} (data : List α) (cap : ℕ) (rand : ℕ → ℕ) :
    ℕ → ℕ → QueueState α → List α
  | _, 0, _ => []
  | i, k + 1, q =>
    let s := drawOne data cap (rand i) q
    (match s.1 with | some a => [a] | none => []) ++
      drawSeqFrom data cap rand (i + 1) k s.2
/-- The first `k` elements drawn by `shuffle_batch` from a fresh queue. -/
def drawSeq {α : Type} (data : List α) (cap : ℕ) (rand : ℕ → ℕ) (k : ℕ) :
    List α :=
  drawSeqFrom data cap rand 0 k { buffer := [], pos := 0 }

/-- The `i`-th consecutive block of `bs` elements of a list (the batch
delivered at step `i`). -/
def batchAt {α : Type} (xs : List α) (bs i : ℕ) : List α :=
  (xs.drop (i * bs)).take bs

/-- The batches delivered by `generate_input_fn(dataset, batch_size)` over
`numSteps` steps: `numSteps * batch_size` element draws from the shuffle
queue (capacity `8 * batch_size`), grouped into consecutive blocks of
`batch_size`. -/
def inputBatches {α : Type} (data : List α) (bs : ℕ) (rand : ℕ → ℕ)
    (numSteps : ℕ) : List (List α) :=
  (List.range numSteps).map (batchAt (drawSeq data (8 * bs) rand (numSteps * bs)) bs)

/-! ### The control flow of `main` -/

/-- The five pipeline stages of `main` (lines 157-208 of `cnn_mnist.py`). -/
inductive Stage where
  | load
  | train
  | evaluate
  | predict
  | exportModel
deriving DecidableEq, Repr, Fintype

/-- Begin/return events of a stage.  Every stage of `main` is a synchronous
call that returns before the next statement runs. -/
inductive Ev where
  | begins (s : Stage)
  | returns (s : Stage)
deriving DecidableEq, Repr

/-- Running one stage emits its begin event, then its return event. -/
def runStage (s : Stage) : List Ev := [Ev.begins s, Ev.returns s]

/-- The stages executed by `main`, in source order:
`input_data.read_data_sets`, `mnist_classifier.train`,
`mnist_classifier.evaluate` (printed), `mnist_classifier.predict`
(printed), `mnist_classifier.export_savedmodel`. -/
def mainStages : List Stage :=
  [Stage.load, Stage.train, Stage.evaluate, Stage.predict, Stage.exportModel]

/-- The event trace of one run of `main`: the stages run one after the
other, each returning before the next begins. -/
def mainEvents : List Ev := (mainStages.map runStage).flatten

/-! ### The evaluation pass -/

/-- Number of matching (prediction, label) positions in a list of examples:
the quantity accumulated in the `total` counter of `tf.metrics.accuracy`.
`c` maps an example's features to its predicted class. -/
def countCorrect {X : Type} (c : X → Fin 10) (xs : List (X × ℤ)) : ℕ :=
  xs.countP (fun e => ((c e.1).val : ℤ) == e.2)

/-- The streaming accumulators of `tf.metrics.accuracy` after processing a
list of batches in order: (number of matching positions, number of
examples). -/
def accuracyFold {X : Type} (c : X → Fin 10) (batches : List (List (X × ℤ))) :
    ℕ × ℕ :=
  batches.foldl (fun acc bt => (acc.1 + countCorrect c bt, acc.2 + bt.length)) (0, 0)

/-- The batches delivered by
`tf.estimator.inputs.numpy_input_fn(..., num_epochs=1, shuffle=False)`:
the dataset in its original order, cut into consecutive blocks of the
default batch size 128, one epoch exactly. -/
def evalInputBatches {X : Type} (xs : List (X × ℤ)) : List (List (X × ℤ)) :=
  (List.range ((xs.length + 127) / 128)).map (batchAt xs 128)

/-! ### Serving contract and the input reshape -/

/-- The shape contract declared by `serving_input_receiver_fn`:
`tf.placeholder(tf.float32, [None, 784])` accepts a `b × l` batch exactly
when the per-example length `l` is 784, for every batch size `b`. -/
def servingInputAccepts (_b l : ℕ) : Bool :=
  l == 784

/-! ### Real-valued graph semantics -/

noncomputable section

/-- `tf.nn.softmax` on a vector of 10 logits (axis = the class axis):
`softmax l i = exp (l i) / Σ j, exp (l j)`. -/
def softmax10 (l : Fin 10 → ℝ) (i : Fin 10) : ℝ :=
  Real.exp (l i) / ∑ j, Real.exp (l j)

/-- The set of indices at which a 10-vector attains its maximum. -/
def maximizers (l : Fin 10 → ℝ) : Finset (Fin 10) :=
  Finset.univ.filter (fun i => ∀ j, l j ≤ l i)

/-- `tf.argmax` over the class axis of a vector of 10 entries, embedded
deterministically as the smallest index attaining the maximum (the
tie-breaking used by the TensorFlow CPU kernel). -/
def argmax10 (l : Fin 10 → ℝ) : Fin 10 :=
  (maximizers l).min' (by
    obtain ⟨i, -, hi⟩ :=
      Finset.exists_max_image (Finset.univ : Finset (Fin 10)) l ⟨0, Finset.mem_univ 0⟩
    exact ⟨i, Finset.mem_filter.mpr
      ⟨Finset.mem_univ i, fun j => hi j (Finset.mem_univ j)⟩⟩)

/-- `tf.nn.relu`. -/
def relu (x : ℝ) : ℝ := max x 0

/-- Zero-padded view of a `h × w × cin` tensor, indexed by integers: entries
outside the valid range read as `0`.  This is the padding used by
`padding="same"` in `tf.layers.conv2d`. -/
def padded {h w cin : ℕ} (x : Fin h → Fin w → Fin cin → ℝ) (i j : ℤ)
    (c : Fin cin) : ℝ :=
  if hij : 0 ≤ i ∧ i < (h : ℤ) ∧ 0 ≤ j ∧ j < (w : ℤ) then
    x ⟨i.toNat, by omega⟩ ⟨j.toNat, by omega⟩ c
  else 0

/-- `tf.layers.conv2d` with a `5 × 5` kernel, stride 1, `padding="same"`,
bias, and an activation function.  With same padding and an odd kernel the
input is zero-padded by 2 on each side, so height and width are preserved.
Kernel layout follows TensorFlow: `[kh, kw, in_channels, out_channels]`. -/
def conv2dSame {h w cin cout : ℕ} (act : ℝ → ℝ)
    (weight : Fin 5 → Fin 5 → Fin cin → Fin cout → ℝ) (bias : Fin cout → ℝ)
    (x : Fin h → Fin w → Fin cin → ℝ) : Fin h → Fin w → Fin cout → ℝ :=
  fun i j k =>
    act (bias k +
      ∑ di : Fin 5, ∑ dj : Fin 5, ∑ c,
        weight di dj c k * padded x ((i : ℤ) + di - 2) ((j : ℤ) + dj - 2) c)

/-- Index arithmetic for a stride-2 window: entry `a` of the window at
output position `i`. -/
def win2 {m : ℕ} (i : Fin m) (a : Fin 2) : Fin (2 * m) :=
  ⟨2 * i.val + a.val, by omega⟩

/-- `tf.layers.max_pooling2d` with `pool_size=[2, 2]` and `strides=2`:
each output entry is the maximum of a disjoint `2 × 2` window. -/
def maxPool2x2 {m n c : ℕ} (x : Fin (2 * m) → Fin (2 * n) → Fin c → ℝ) :
    Fin m → Fin n → Fin c → ℝ :=
  fun i j k =>
    max (max (x (win2 i 0) (win2 j 0) k) (x (win2 i 0) (win2 j 1) k))
        (max (x (win2 i 1) (win2 j 0) k) (x (win2 i 1) (win2 j 1) k))

/-- The input reshape `tf.reshape(features["x"], [-1, 28, 28, 1])`, viewed
per example: a flat vector of 784 pixels becomes a `28 × 28 × 1` image,
row-major. -/
def reshape784 (x : Fin 784 → ℝ) : Fin 28 → Fin 28 → Fin 1 → ℝ :=
  fun i j _ => x ⟨28 * i.val + j.val, by omega⟩

/-- The flatten `tf.reshape(pool2, [-1, 7 * 7 * 64])`, viewed per example:
a `7 × 7 × 64` tensor becomes a row-major flat vector of `7 * 7 * 64`
entries. -/
def flatten7x7x64 (x : Fin 7 → Fin 7 → Fin 64 → ℝ) : Fin (7 * 7 * 64) → ℝ :=
  fun v => x ⟨v.val / (7 * 64), by omega⟩ ⟨v.val / 64 % 7, by omega⟩
             ⟨v.val % 64, by omega⟩

/-- `tf.layers.dense`: `act (x · kernel + bias)`, kernel layout
`[in_units, out_units]`. -/
def denseLayer {nin nout : ℕ} (act : ℝ → ℝ) (weight : Fin nin → Fin nout → ℝ)
    (bias : Fin nout → ℝ) (x : Fin nin → ℝ) : Fin nout → ℝ :=
  fun k => act (bias k + ∑ i, weight i k * x i)

/-- `tf.layers.dropout` with a given rate: when `training` is true each unit
is kept with probability `1 - rate` and scaled by `1 / (1 - rate)`; the
random keep decisions are the `mask` argument.  When `training` is false the
layer is the identity and the mask is ignored. -/
def dropoutLayer {n : ℕ} (rate : ℝ) (training : Bool) (mask : Fin n → Bool)
    (x : Fin n → ℝ) : Fin n → ℝ :=
  if training then (fun i => if mask i then x i / (1 - rate) else 0) else x

/-- The learned weights of `cnn_model_fn`'s layers (framework-managed
variables in the script). -/
structure CNNParams where
  conv1Kernel : Fin 5 → Fin 5 → Fin 1 → Fin 32 → ℝ
  conv1Bias : Fin 32 → ℝ
  conv2Kernel : Fin 5 → Fin 5 → Fin 32 → Fin 64 → ℝ
  conv2Bias : Fin 64 → ℝ
  denseKernel : Fin (7 * 7 * 64) → Fin 1024 → ℝ
  denseBias : Fin 1024 → ℝ
  logitsKernel : Fin 1024 → Fin 10 → ℝ
  logitsBias : Fin 10 → ℝ

/-- The forward pass of `cnn_model_fn` on one example (lines 42-102 of
`cnn_mnist.py`), producing the 10 logits.  The `mask` argument carries the
dropout randomness; it only matters when `mode` is `TRAIN`. -/
def cnnLogits (p : CNNParams) (mode : Mode) (mask : Fin 1024 → Bool)
    (x : Fin 784 → ℝ) : Fin 10 → ℝ :=
  let input_layer := reshape784 x
  let conv1 := conv2dSame relu p.conv1Kernel p.conv1Bias input_layer
  let pool1 : Fin 14 → Fin 14 → Fin 32 → ℝ := maxPool2x2 conv1
  let conv2 := conv2dSame relu p.conv2Kernel p.conv2Bias pool1
  let pool2 : Fin 7 → Fin 7 → Fin 64 → ℝ := maxPool2x2 conv2
  let pool2_flat := flatten7x7x64 pool2
  let dense := denseLayer relu p.denseKernel p.denseBias pool2_flat
  let dropout := dropoutLayer 0.4 (decide (mode = Mode.TRAIN)) mask dense
  denseLayer id p.logitsKernel p.logitsBias dropout

/-- The `predictions` dict built by `cnn_model_fn`: per-example predicted
class (`tf.argmax` of the logits) and probability vector (`tf.nn.softmax` of
the logits). -/
structure Predictions (b : ℕ) where
  classes : Fin b → Fin 10
  probabilities : Fin b → Fin 10 → ℝ

/-- The training operation placed in the `TRAIN`-mode spec:
`tf.train.AdamOptimizer(learning_rate=1e-4).minimize(loss)`. -/
inductive TrainOp where
  | adamMinimize (learningRate : ℝ)

/-- `tf.one_hot(indices=labels, depth=10)` on one integer label: the vector
with a `1` at position `label` when `0 ≤ label < 10`, and the all-zero
vector when the label is out of range (documented `tf.one_hot` behavior). -/
def oneHot10 (label : ℤ) (i : Fin 10) : ℝ :=
  if label = (i.val : ℤ) then 1 else 0

/-- Per-example `tf.nn.softmax_cross_entropy_with_logits`, in the form the
kernel computes it: `Σ_i labels_i · (log Σ_j exp l_j − l_i)`. -/
def softmaxCrossEntropyWithLogits (labels l : Fin 10 → ℝ) : ℝ :=
  ∑ i, labels i * (Real.log (∑ j, Real.exp (l j)) - l i)

/-- `tf.losses.softmax_cross_entropy(onehot_labels, logits)` with the
default reduction: the per-example cross entropies averaged over the
batch. -/
def softmaxCrossEntropyLoss (b : ℕ) (onehot logits : Fin b → Fin 10 → ℝ) : ℝ :=
  (∑ k, softmaxCrossEntropyWithLogits (onehot k) (logits k)) / b

/-- Categorical cross-entropy as the spec words it: minus the sum of one-hot
components times the log of the softmax probabilities, averaged over the
batch.  Stated from the spec's words, to be compared with the code-side
`softmaxCrossEntropyLoss`. -/
def categoricalCrossEntropy (b : ℕ) (onehot logits : Fin b → Fin 10 → ℝ) : ℝ :=
  (∑ k, -∑ i, onehot k i * Real.log (softmax10 (logits k) i)) / b

/-- The accuracy of one batch of predictions against its labels, the value
accumulated by `tf.metrics.accuracy`: matching positions over batch size. -/
def batchAccuracy (b : ℕ) (labels : Fin b → ℤ) (classes : Fin b → Fin 10) : ℝ :=
  ((Finset.univ.filter (fun k : Fin b => ((classes k).val : ℤ) = labels k)).card : ℝ) / b

/-- The `tf.estimator.EstimatorSpec` returned by `cnn_model_fn`: the mode
plus the optional outputs actually passed for that mode. -/
structure EstimatorSpec (b : ℕ) where
  mode : Mode
  predictions : Option (Predictions b)
  loss : Option ℝ
  trainOp : Option TrainOp
  accuracyMetric : Option ℝ
  exportOutputs : Option (Predictions b)

/-- The model function `cnn_model_fn(features, labels, mode)` of
`cnn_mnist.py`, over a batch of `b` examples.  `p` are the layer weights
(framework variables) and `mask` the dropout randomness, both managed by the
framework in the script. -/
def cnn_model_fn (b : ℕ) (features : Fin b → Fin 784 → ℝ)
    (labels : Fin b → ℤ) (mode : Mode) (p : CNNParams)
    (mask : Fin 1024 → Bool) : EstimatorSpec b :=
  let logits := fun k => cnnLogits p mode mask (features k)
  let predictions : Predictions b :=
    { classes := fun k => argmax10 (logits k)
      probabilities := fun k => softmax10 (logits k) }
  if mode = Mode.PREDICT then
    { mode := mode, predictions := some predictions, loss := none,
      trainOp := none, accuracyMetric := none,
      exportOutputs := some predictions }
  else
    let onehot_labels := fun k => oneHot10 (labels k)
    let loss := softmaxCrossEntropyLoss b onehot_labels logits
    if mode = Mode.TRAIN then
      { mode := mode, predictions := none, loss := some loss,
        trainOp := some (TrainOp.adamMinimize 1e-4), accuracyMetric := none,
        exportOutputs := none }
    else
      { mode := mode, predictions := none, loss := some loss, trainOp := none,
        accuracyMetric := some (batchAccuracy b labels predictions.classes),
        exportOutputs := none }

/-- A training example, as delivered by the input pipeline: flat feature
vector and integer label. -/
def TrainExample : Type := (Fin 784 → ℝ) × ℤ

/-- All-zero layer weights, a concrete parameter point for instantiating
theorems. -/
def zeroParams : CNNParams :=
  ⟨fun _ _ _ _ => 0, fun _ => 0, fun _ _ _ _ => 0, fun _ => 0,
   fun _ _ => 0, fun _ => 0, fun _ _ => 0, fun _ => 0⟩

/-- The all-zero training example, a concrete input point for instantiating
theorems. -/
def zeroExample : TrainExample := (fun _ => 0, 0)

/-- One step of the estimator training loop driven by
`mnist_classifier.train(input_fn=generate_input_fn(mnist.train, 100),
steps=FLAGS.num_steps, hooks=[logging_hook])`: the batch consumed, the
train op of the TRAIN-mode `cnn_model_fn` spec applied on it, and whether
the `LoggingTensorHook` on the softmax tensor fired at this step. -/
structure TrainStep where
  batch : List TrainExample
  appliedOp : Option TrainOp
  logged : Bool

/-- Step `i` of the training loop: the weights at step `i` are `ps i` and
the dropout randomness is `masks i`; `LoggingTensorHook(every_n_iter=N)`
fires at steps `0, N, 2N, …`. -/
def trainStepAt (ps : ℕ → CNNParams) (masks : ℕ → Fin 1024 → Bool) (N : ℕ)
    (i : ℕ) (batch : List TrainExample) : TrainStep :=
  { batch := batch
    appliedOp := (cnn_model_fn batch.length (fun k => (batch.get k).1)
      (fun k => (batch.get k).2) Mode.TRAIN (ps i) (masks i)).trainOp
    logged := i % N == 0 }

/-- The training driver: `numSteps` estimator steps, each consuming the next
batch of `BATCH_SIZE = 100` examples from the `generate_input_fn` shuffle
queue (step `i` consumes the `i`-th entry of `inputBatches`, the `i`-th
block of 100 queue draws) and applying the TRAIN spec's train op once. -/
def trainRun (data : List TrainExample) (rand : ℕ → ℕ) (ps : ℕ → CNNParams)
    (masks : ℕ → Fin 1024 → Bool) (numSteps N : ℕ) : List TrainStep :=
  (List.range numSteps).map (fun i =>
    trainStepAt ps masks N i
      (batchAt (drawSeq data (8 * 100) rand (numSteps * 100)) 100 i))

/-- `tf.reshape(t, [-1, 28, 28, 1])` needs a flat index into the `b × l`
input tensor. -/
def flatIndex (b l : ℕ) (x : Fin b → Fin l → ℝ) (v : ℕ) : ℝ :=
  if h : v / l < b ∧ v % l < l then x ⟨v / l, h.1⟩ ⟨v % l, h.2⟩ else 0

/-- `tf.reshape(t, [-1, 28, 28, 1])` on a `b × l` tensor: the wildcard batch
dimension is inferred as `b * l / 784` when the total element count is
divisible by `784 = 28 * 28 * 1`; otherwise the reshape has no valid result
and the op fails. -/
def reshapeWild28x28 (b l : ℕ) (x : Fin b → Fin l → ℝ) :
    Option ((b' : ℕ) × (Fin b' → Fin 28 → Fin 28 → Fin 1 → ℝ)) :=
  if b * l % 784 = 0 then
    some ⟨b * l / 784,
      fun bi i j _ => flatIndex b l x (bi.val * 784 + i.val * 28 + j.val)⟩
  else none

/-- `Estimator.evaluate` over the `numpy_input_fn` eval input: stream the
batches in order through the `tf.metrics.accuracy` accumulators and return
total matches over total count. -/
def evaluateRun {X : Type} (c : X → Fin 10) (xs : List (X × ℤ)) : ℝ :=
  ((accuracyFold c (evalInputBatches xs)).1 : ℝ) /
    ((accuracyFold c (evalInputBatches xs)).2 : ℝ)

end

/-! ### Helper lemmas -/

theorem maximizers_nonempty (l : Fin 10 → ℝ) : (maximizers l).Nonempty := by
  obtain ⟨i, -, hi⟩ :=
    Finset.exists_max_image (Finset.univ : Finset (Fin 10)) l ⟨0, Finset.mem_univ 0⟩
  exact ⟨i, Finset.mem_filter.mpr ⟨Finset.mem_univ i, fun j => hi j (Finset.mem_univ j)⟩⟩

theorem argmax10_mem (l : Fin 10 → ℝ) : argmax10 l ∈ maximizers l :=
  Finset.min'_mem _ _

theorem le_argmax10 (l : Fin 10 → ℝ) (j : Fin 10) : l j ≤ l (argmax10 l) :=
  (Finset.mem_filter.mp (argmax10_mem l)).2 j

theorem sum_exp_pos (l : Fin 10 → ℝ) : 0 < ∑ j, Real.exp (l j) :=
  Finset.sum_pos (fun j _ => Real.exp_pos (l j)) ⟨0, Finset.mem_univ 0⟩

/-- Softmax preserves the order of the logits. -/
theorem softmax10_le_softmax10_iff (l : Fin 10 → ℝ) (i j : Fin 10) :
    softmax10 l i ≤ softmax10 l j ↔ l i ≤ l j := by
  unfold softmax10
  rw [div_le_div_iff_of_pos_right (sum_exp_pos l), Real.exp_le_exp]

/-- Softmax has the same maximizer set as the logits. -/
theorem maximizers_softmax10 (l : Fin 10 → ℝ) :
    maximizers (softmax10 l) = maximizers l := by
  ext i
  simp only [maximizers, Finset.mem_filter, Finset.mem_univ, true_and]
  exact ⟨fun h j => (softmax10_le_softmax10_iff l j i).mp (h j),
         fun h j => (softmax10_le_softmax10_iff l j i).mpr (h j)⟩

theorem argmax10_softmax10 (l : Fin 10 → ℝ) :
    argmax10 (softmax10 l) = argmax10 l := by
  unfold argmax10
  congr 1
  exact maximizers_softmax10 l

theorem sum_softmax10 (l : Fin 10 → ℝ) : ∑ i, softmax10 l i = 1 := by
  unfold softmax10
  rw [← Finset.sum_div, div_self (ne_of_gt (sum_exp_pos l))]

/-- The per-example cross entropy computed by the kernel agrees with the
textbook categorical cross entropy against the softmax probabilities. -/
theorem softmaxCrossEntropyWithLogits_eq (lab l : Fin 10 → ℝ) :
    softmaxCrossEntropyWithLogits lab l =
      -∑ i, lab i * Real.log (softmax10 l i) := by
  unfold softmaxCrossEntropyWithLogits softmax10
  rw [← Finset.sum_neg_distrib]
  refine Finset.sum_congr rfl fun i _ => ?_
  rw [Real.log_div (Real.exp_ne_zero _) (ne_of_gt (sum_exp_pos l)),
    Real.log_exp]
  ring

theorem softmaxCrossEntropyLoss_eq (b : ℕ) (onehot logits : Fin b → Fin 10 → ℝ) :
    softmaxCrossEntropyLoss b onehot logits =
      categoricalCrossEntropy b onehot logits := by
  unfold softmaxCrossEntropyLoss categoricalCrossEntropy
  congr 1
  exact Finset.sum_congr rfl fun k _ =>
    softmaxCrossEntropyWithLogits_eq (onehot k) (logits k)

/-! ### Claim theorems: the model function -/

/-- C1: for every input batch and every example in it, the predicted class
index (`classes`, argmax of the logits) equals the (first) index of the
maximum entry of that example's probability vector (`probabilities`,
softmax of the same logits), which is indeed a maximum of the probability
vector. -/
theorem classes_eq_argmax_probabilities (b : ℕ) (features : Fin b → Fin 784 → ℝ)
    (labels : Fin b → ℤ) (p : CNNParams) (mask : Fin 1024 → Bool) (k : Fin b) :
    ∃ pr, (cnn_model_fn b features labels Mode.PREDICT p mask).predictions = some pr ∧
      pr.classes k = argmax10 (pr.probabilities k) ∧
      ∀ j, pr.probabilities k j ≤ pr.probabilities k (pr.classes k) := by
  refine ⟨_, rfl, ?_, ?_⟩
  · exact (argmax10_softmax10 _).symm
  · intro j
    have h := le_argmax10 (softmax10 (cnnLogits p Mode.PREDICT mask (features k))) j
    rwa [argmax10_softmax10] at h

/-- C4: for every input batch and every example in it, the entries of the
probability vector returned by the model function sum to 1 over the class
axis. -/
theorem probabilities_sum_one (b : ℕ) (features : Fin b → Fin 784 → ℝ)
    (labels : Fin b → ℤ) (p : CNNParams) (mask : Fin 1024 → Bool) (k : Fin b) :
    ∃ pr, (cnn_model_fn b features labels Mode.PREDICT p mask).predictions = some pr ∧
      ∑ i, pr.probabilities k i = 1 :=
  ⟨_, rfl, sum_softmax10 _⟩

/-- C2: the logits are exactly the fixed pipeline
conv(32, 5×5, same, ReLU) → maxpool(2×2, stride 2) → conv(64, 5×5, same,
ReLU) → maxpool(2×2, stride 2) → flatten to `7 * 7 * 64` → dense(1024,
ReLU) → dropout(0.4, active exactly in TRAIN mode) → dense(10, identity
activation), and the model function's prediction outputs are the softmax of
these logits for `probabilities` and their argmax for `classes`. -/
theorem cnn_architecture (p : CNNParams) (mode : Mode) (mask : Fin 1024 → Bool)
    (x : Fin 784 → ℝ) (b : ℕ) (features : Fin b → Fin 784 → ℝ)
    (labels : Fin b → ℤ) :
    cnnLogits p mode mask x =
      denseLayer id p.logitsKernel p.logitsBias
        (dropoutLayer 0.4 (decide (mode = Mode.TRAIN)) mask
          (denseLayer relu p.denseKernel p.denseBias
            (flatten7x7x64
              (maxPool2x2
                (conv2dSame relu p.conv2Kernel p.conv2Bias
                  (maxPool2x2
                    (conv2dSame relu p.conv1Kernel p.conv1Bias
                      (reshape784 x)))))))) ∧
    (cnn_model_fn b features labels Mode.PREDICT p mask).predictions =
      some { classes := fun k => argmax10 (cnnLogits p Mode.PREDICT mask (features k))
             probabilities := fun k => softmax10 (cnnLogits p Mode.PREDICT mask (features k)) } :=
  ⟨rfl, rfl⟩

/-- C5 (dropout inactive outside TRAIN): in any non-train mode the model
function does not depend on the dropout randomness, so two applications to
the same batch with the same weights give identical outputs. -/
theorem nonTrain_deterministic (b : ℕ) (features : Fin b → Fin 784 → ℝ)
    (labels : Fin b → ℤ) (mode : Mode) (p : CNNParams)
    (mask₁ mask₂ : Fin 1024 → Bool) (h : mode ≠ Mode.TRAIN) :
    cnn_model_fn b features labels mode p mask₁ =
      cnn_model_fn b features labels mode p mask₂ := by
  have hd : decide (mode = Mode.TRAIN) = false := decide_eq_false h
  simp only [cnn_model_fn, cnnLogits, dropoutLayer, hd, Bool.false_eq_true,
    if_false]

/-- Concrete instantiation of `nonTrain_deterministic` at PREDICT mode with
two different dropout masks. -/
theorem nonTrain_deterministic_witness :
    Mode.PREDICT ≠ Mode.TRAIN ∧
      cnn_model_fn 1 (fun _ _ => 0) (fun _ => 0) Mode.PREDICT zeroParams
          (fun _ => true) =
        cnn_model_fn 1 (fun _ _ => 0) (fun _ => 0) Mode.PREDICT zeroParams
          (fun _ => false) :=
  ⟨by decide, nonTrain_deterministic 1 (fun _ _ => 0) (fun _ => 0)
    Mode.PREDICT zeroParams (fun _ => true) (fun _ => false) (by decide)⟩

/-- C3: the returned spec by mode — TRAIN carries the loss and the Adam
train op at learning rate `1e-4`; EVAL carries the loss and the accuracy
metric on the argmax classes; PREDICT carries the class and probability
predictions and no loss; and in TRAIN and EVAL the loss is the categorical
cross-entropy between the logits and the depth-10 one-hot encoding of the
integer labels. -/
theorem model_fn_mode_outputs (b : ℕ) (features : Fin b → Fin 784 → ℝ)
    (labels : Fin b → ℤ) (p : CNNParams) (mask : Fin 1024 → Bool) :
    ((cnn_model_fn b features labels Mode.TRAIN p mask).loss =
        some (categoricalCrossEntropy b (fun k => oneHot10 (labels k))
          (fun k => cnnLogits p Mode.TRAIN mask (features k))) ∧
      (cnn_model_fn b features labels Mode.TRAIN p mask).trainOp =
        some (TrainOp.adamMinimize 1e-4) ∧
      (cnn_model_fn b features labels Mode.TRAIN p mask).predictions = none) ∧
    ((cnn_model_fn b features labels Mode.EVAL p mask).loss =
        some (categoricalCrossEntropy b (fun k => oneHot10 (labels k))
          (fun k => cnnLogits p Mode.EVAL mask (features k))) ∧
      (cnn_model_fn b features labels Mode.EVAL p mask).accuracyMetric =
        some (batchAccuracy b labels
          (fun k => argmax10 (cnnLogits p Mode.EVAL mask (features k)))) ∧
      (cnn_model_fn b features labels Mode.EVAL p mask).trainOp = none) ∧
    ((cnn_model_fn b features labels Mode.PREDICT p mask).predictions =
        some { classes := fun k => argmax10 (cnnLogits p Mode.PREDICT mask (features k))
               probabilities := fun k => softmax10 (cnnLogits p Mode.PREDICT mask (features k)) } ∧
      (cnn_model_fn b features labels Mode.PREDICT p mask).loss = none) := by
  refine ⟨⟨?_, rfl, rfl⟩, ⟨?_, rfl, rfl⟩, rfl, rfl⟩
  · rw [show (cnn_model_fn b features labels Mode.TRAIN p mask).loss =
      some (softmaxCrossEntropyLoss b (fun k => oneHot10 (labels k))
        (fun k => cnnLogits p Mode.TRAIN mask (features k))) from rfl,
      softmaxCrossEntropyLoss_eq]
  · rw [show (cnn_model_fn b features labels Mode.EVAL p mask).loss =
      some (softmaxCrossEntropyLoss b (fun k => oneHot10 (labels k))
        (fun k => cnnLogits p Mode.EVAL mask (features k))) from rfl,
      softmaxCrossEntropyLoss_eq]

/-! ### Claim theorems: labels out of range (C10) -/

/-- C10: a label outside the class range 0..9 one-hot encodes (at depth 10)
to the all-zero vector, its per-example cross entropy term is 0, and the
TRAIN- and EVAL-mode specs still carry a defined loss value — no operation
fails. -/
theorem outOfRange_label_loss_defined (b : ℕ) (features : Fin b → Fin 784 → ℝ)
    (labels : Fin b → ℤ) (p : CNNParams) (mask : Fin 1024 → Bool) (k : Fin b)
    (h : labels k < 0 ∨ 10 ≤ labels k) :
    oneHot10 (labels k) = (fun _ => 0) ∧
    softmaxCrossEntropyWithLogits (oneHot10 (labels k))
      (cnnLogits p Mode.TRAIN mask (features k)) = 0 ∧
    ((cnn_model_fn b features labels Mode.TRAIN p mask).loss).isSome = true ∧
    ((cnn_model_fn b features labels Mode.EVAL p mask).loss).isSome = true := by
  have h0 : oneHot10 (labels k) = fun _ => 0 := by
    funext i
    unfold oneHot10
    rw [if_neg]
    have hi := i.isLt
    omega
  refine ⟨h0, ?_, rfl, rfl⟩
  rw [h0]
  unfold softmaxCrossEntropyWithLogits
  simp

/-- Concrete instantiation of `outOfRange_label_loss_defined` at the
out-of-range label 10. -/
theorem outOfRange_label_loss_defined_witness :
    ((10 : ℤ) < 0 ∨ (10 : ℤ) ≤ 10) ∧
      (oneHot10 10 = (fun _ => 0) ∧
       softmaxCrossEntropyWithLogits (oneHot10 10)
         (cnnLogits zeroParams Mode.TRAIN (fun _ => false) (fun _ => 0)) = 0 ∧
       ((cnn_model_fn 1 (fun _ _ => 0) (fun _ => 10) Mode.TRAIN zeroParams
          (fun _ => false)).loss).isSome = true ∧
       ((cnn_model_fn 1 (fun _ _ => 0) (fun _ => 10) Mode.EVAL zeroParams
          (fun _ => false)).loss).isSome = true) :=
  ⟨Or.inr (by norm_num),
   outOfRange_label_loss_defined 1 (fun _ _ => 0) (fun _ => 10) zeroParams
     (fun _ => false) 0 (Or.inr (by norm_num))⟩

/-! ### Claim theorems: the evaluation pass (C7) -/

theorem batchAt_succ {α : Type} (xs : List α) (bs i : ℕ) :
    batchAt xs bs (i + 1) = batchAt (xs.drop bs) bs i := by
  unfold batchAt
  rw [List.drop_drop]
  congr 2
  ring

/-- Consecutive blocks of `bs` elements, concatenated back, recover the
original list once enough blocks are taken. -/
theorem flatten_range_batchAt {α : Type} (bs : ℕ) :
    ∀ (m : ℕ) (xs : List α), xs.length ≤ m * bs →
      ((List.range m).map (batchAt xs bs)).flatten = xs := by
  intro m
  induction m with
  | zero =>
    intro xs h
    have : xs = [] := List.eq_nil_of_length_eq_zero (by omega)
    simp [this]
  | succ m ih =>
    intro xs h
    rw [List.range_succ_eq_map, List.map_cons, List.flatten_cons, List.map_map]
    have hmap : (List.range m).map (batchAt xs bs ∘ Nat.succ) =
        (List.range m).map (batchAt (xs.drop bs) bs) :=
      List.map_congr_left fun i _ => batchAt_succ xs bs i
    have h' : xs.length - bs ≤ m * bs := by
      rw [Nat.succ_mul] at h
      omega
    rw [hmap, ih (xs.drop bs) (by simpa using h')]
    simp [batchAt]

theorem countCorrect_append {X : Type} (c : X → Fin 10)
    (l₁ l₂ : List (X × ℤ)) :
    countCorrect c (l₁ ++ l₂) = countCorrect c l₁ + countCorrect c l₂ := by
  unfold countCorrect
  exact List.countP_append _ _ _

/-- Streaming the batches through the accuracy accumulators counts exactly
the matches and examples of the concatenation of all batches. -/
theorem accuracyFold_eq {X : Type} (c : X → Fin 10)
    (batches : List (List (X × ℤ))) :
    accuracyFold c batches = (countCorrect c batches.flatten, batches.flatten.length) := by
  suffices hgen : ∀ (bs : List (List (X × ℤ))) (a b : ℕ),
      bs.foldl (fun acc bt => (acc.1 + countCorrect c bt, acc.2 + bt.length)) (a, b) =
        (a + countCorrect c bs.flatten, b + bs.flatten.length) by
    have h := hgen batches 0 0
    simpa [accuracyFold] using h
  intro bs
  induction bs with
  | nil => intro a b; simp [countCorrect]
  | cons x xs ih =>
    intro a b
    simp only [List.foldl_cons, ih, List.flatten_cons, countCorrect_append,
      List.length_append, Prod.mk.injEq]
    omega

/-- C7: the evaluation driver makes exactly one pass in the original order
over the held-out split (the concatenation of the batches it processes is
the split itself), and the scalar it reports is the per-batch accuracy
counts aggregated into total matches over total examples. -/
theorem evaluation_single_pass {X : Type} (c : X → Fin 10)
    (xs : List (X × ℤ)) :
    (evalInputBatches xs).flatten = xs ∧
    evaluateRun c xs = (countCorrect c xs : ℝ) / (xs.length : ℝ) := by
  have hj : (evalInputBatches xs).flatten = xs :=
    flatten_range_batchAt 128 ((xs.length + 127) / 128) xs (by omega)
  refine ⟨hj, ?_⟩
  unfold evaluateRun
  rw [accuracyFold_eq, hj]

/-! ### Claim theorems: the control flow of `main` (C8) -/

/-- C8: in every run, `main` executes the five stages strictly one after the
other in the order load, train, evaluate, predict, export — each stage's
return event precedes the next stage's begin event — and every stage occurs
exactly once (none skipped, none repeated). -/
theorem main_sequential_stages :
    mainEvents =
      [Ev.begins Stage.load, Ev.returns Stage.load,
       Ev.begins Stage.train, Ev.returns Stage.train,
       Ev.begins Stage.evaluate, Ev.returns Stage.evaluate,
       Ev.begins Stage.predict, Ev.returns Stage.predict,
       Ev.begins Stage.exportModel, Ev.returns Stage.exportModel] ∧
    (∀ s : Stage, mainStages.count s = 1) := by
  constructor
  · rfl
  · decide

/-! ### Claim theorems: the input reshape and the serving contract (C9) -/

/-- C9 counterexample: a batch whose per-example length is 1568 ≠ 784 (one
example, 1568 features) still reshapes successfully to `[-1, 28, 28, 1]`,
because only the total element count needs to be divisible by 784. -/
theorem reshape_non784_counterexample :
    (reshapeWild28x28 1 1568 (fun _ _ => 0)).isSome = true ∧ (1568 : ℕ) ≠ 784 := by
  constructor
  · unfold reshapeWild28x28
    norm_num
  · decide

/-- C9 (amended): the initial reshape to `[-1, 28, 28, 1]` has a valid
result exactly when the total element count of the input is divisible by
784 = 28·28·1 — in particular it accepts any batch size when the
per-example length is 784, inferring that batch size — and the exported
serving contract accepts exactly the per-example length 784, for every
batch size. -/
theorem reshape_wildcard_validity (b l : ℕ) (x : Fin b → Fin l → ℝ) :
    ((reshapeWild28x28 b l x).isSome = true ↔ b * l % 784 = 0) ∧
    (l = 784 → (reshapeWild28x28 b l x).map (fun r => r.fst) = some b) ∧
    (∀ b', servingInputAccepts b' l = true ↔ l = 784) := by
  refine ⟨?_, ?_, ?_⟩
  · unfold reshapeWild28x28
    by_cases h : b * l % 784 = 0
    · rw [if_pos h]
      simp [h]
    · rw [if_neg h]
      simp [h]
  · intro hl
    subst hl
    unfold reshapeWild28x28
    rw [if_pos (by omega)]
    show some (b * 784 / 784) = some b
    exact congrArg some (by omega)
  · intro b'
    unfold servingInputAccepts
    exact beq_iff_eq

/-- Concrete instantiation of `reshape_wildcard_validity`: a batch of 2
examples of length 784 reshapes with inferred batch dimension 2. -/
theorem reshape_wildcard_validity_witness :
    (reshapeWild28x28 2 784 (fun _ _ => 0)).map (fun r => r.fst) = some 2 :=
  (reshape_wildcard_validity 2 784 (fun _ _ => 0)).2.1 rfl

/-! ### Claim theorems: the training driver (C6) -/

theorem cycleRow_isSome {α : Type} (data : List α) (hd : data ≠ []) (n : ℕ) :
    (cycleRow data n).isSome = true := by
  unfold cycleRow
  rw [List.get?_eq_get (Nat.mod_lt _ (List.length_pos.mpr hd))]
  rfl

theorem length_filterMap_cycleRow {α : Type} (data : List α) (hd : data ≠ [])
    (p : ℕ) (n : ℕ) :
    ((List.range n).filterMap (fun t => cycleRow data (p + t))).length = n := by
  induction n with
  | zero => rfl
  | succ n ih =>
    rw [List.range_succ, List.filterMap_append, List.length_append, ih]
    obtain ⟨a, ha⟩ := Option.isSome_iff_exists.mp (cycleRow_isSome data hd (p + n))
    simp [List.filterMap_cons, ha]

theorem fillTo_length {α : Type} (data : List α) (hd : data ≠ []) (cap : ℕ)
    (q : QueueState α) (h : q.buffer.length ≤ cap) :
    (fillTo data cap q).buffer.length = cap := by
  simp only [fillTo]
  rw [List.length_append, length_filterMap_cycleRow data hd]
  omega

theorem dequeueAt_pos {α : Type} (r : ℕ) (q : QueueState α)
    (h : 0 < q.buffer.length) :
    ∃ a, (dequeueAt r q).1 = some a ∧
      (dequeueAt r q).2.buffer.length = q.buffer.length - 1 := by
  unfold dequeueAt
  have hlt : r % q.buffer.length < q.buffer.length := Nat.mod_lt _ h
  rw [List.get?_eq_get hlt]
  exact ⟨_, rfl, by simp [List.length_eraseIdx, hlt]⟩

theorem drawSeqFrom_length {α : Type} (data : List α) (cap : ℕ) (rand : ℕ → ℕ)
    (hd : data ≠ []) (hc : 0 < cap) :
    ∀ (k i : ℕ) (q : QueueState α), q.buffer.length ≤ cap →
      (drawSeqFrom data cap rand i k q).length = k := by
  intro k
  induction k with
  | zero => intro i q _; rfl
  | succ k ih =>
    intro i q h
    have hfill : (fillTo data cap q).buffer.length = cap :=
      fillTo_length data hd cap q h
    obtain ⟨a, ha, hlen⟩ :=
      dequeueAt_pos (rand i) (fillTo data cap q) (by omega)
    simp only [drawSeqFrom, drawOne, ha]
    rw [List.length_append, ih (i + 1) _ (by omega), List.length_singleton]
    omega

theorem drawSeq_length {α : Type} (data : List α) (cap : ℕ) (rand : ℕ → ℕ)
    (hd : data ≠ []) (hc : 0 < cap) (k : ℕ) :
    (drawSeq data cap rand k).length = k :=
  drawSeqFrom_length data cap rand hd hc k 0 _ (Nat.zero_le cap)

theorem batchAt_length {α : Type} (xs : List α) (bs i : ℕ)
    (h : (i + 1) * bs ≤ xs.length) : (batchAt xs bs i).length = bs := by
  unfold batchAt
  rw [List.length_take, List.length_drop]
  rw [Nat.succ_mul] at h
  omega

/-- C6 (amended): the training driver runs exactly `numSteps` steps; step
`i` consumes exactly the `i`-th batch delivered by `generate_input_fn`'s
shuffle queue, which has exactly `BATCH_SIZE = 100` examples; each step
applies the TRAIN-mode spec's train op — the Adam optimizer update at the
fixed learning rate `1e-4` — once; and the logging hook on the softmax
tensor fires exactly every `N` steps (at the steps `i` with `i % N = 0`).
The batches are blocks of draws from the bounded shuffle buffer over the
cyclically repeated training split; the draws need not be without replacement
within an epoch (see the counterexample). -/
theorem training_loop_structure (data : List TrainExample) (rand : ℕ → ℕ)
    (ps : ℕ → CNNParams) (masks : ℕ → Fin 1024 → Bool) (numSteps N : ℕ)
    (hd : data ≠ []) :
    (trainRun data rand ps masks numSteps N).length = numSteps ∧
    (∀ i, i < numSteps →
      (trainRun data rand ps masks numSteps N).get? i =
        some { batch := batchAt (drawSeq data (8 * 100) rand (numSteps * 100)) 100 i
               appliedOp := some (TrainOp.adamMinimize 1e-4)
               logged := (i % N == 0) } ∧
      (inputBatches data 100 rand numSteps).get? i =
        some (batchAt (drawSeq data (8 * 100) rand (numSteps * 100)) 100 i) ∧
      (batchAt (drawSeq data (8 * 100) rand (numSteps * 100)) 100 i).length = 100) := by
  refine ⟨by simp [trainRun], fun i hi => ⟨?_, ?_, ?_⟩⟩
  · unfold trainRun
    rw [List.get?_map, List.get?_range hi]
    rfl
  · unfold inputBatches
    rw [List.get?_map, List.get?_range hi]
    rfl
  · exact batchAt_length _ _ _
      (by rw [drawSeq_length data (8 * 100) rand hd (by norm_num)]; omega)

/-- Concrete instantiation of `training_loop_structure`: one step, logging
interval 1, a one-example training split. -/
theorem training_loop_structure_witness :
    ([zeroExample] : List TrainExample) ≠ [] ∧
      ((trainRun [zeroExample] (fun i => i) (fun _ => zeroParams)
          (fun _ _ => false) 1 1).length = 1 ∧
        (∀ i, i < 1 →
          (trainRun [zeroExample] (fun i => i) (fun _ => zeroParams)
              (fun _ _ => false) 1 1).get? i =
            some { batch := batchAt (drawSeq [zeroExample] (8 * 100) (fun i => i) (1 * 100)) 100 i
                   appliedOp := some (TrainOp.adamMinimize 1e-4)
                   logged := (i % 1 == 0) } ∧
          (inputBatches [zeroExample] 100 (fun i => i) 1).get? i =
            some (batchAt (drawSeq [zeroExample] (8 * 100) (fun i => i) (1 * 100)) 100 i) ∧
          (batchAt (drawSeq [zeroExample] (8 * 100) (fun i => i) (1 * 100)) 100 i).length = 100)) :=
  ⟨List.cons_ne_nil _ _,
   training_loop_structure [zeroExample] (fun i => i) (fun _ => zeroParams)
     (fun _ _ => false) 1 1 (List.cons_ne_nil _ _)⟩

set_option maxRecDepth 100000 in
/-- C6 counterexample: with a training split of two distinct examples, the
shuffle-batch pipeline used by the training driver (capacity
`8 * BATCH_SIZE = 800`, the buffer kept full from the cyclically repeated
split) can draw the first example twice within the first epoch's worth (2)
of draws: the sampling is not without replacement within an epoch. -/
theorem shuffleBatch_repeats_within_epoch :
    drawSeq [0, 1] (8 * 100) (fun i => i) 2 = [0, 0] ∧
      ¬ (drawSeq [0, 1] (8 * 100) (fun i => i) 2).Nodup := by
  constructor
  · decide
  · decide

end CnnMnist
